import Mathlib

/-
  Verification of the openclaw-calendar repository.

  Shallow embedding of `scripts/generate.py` and `scripts/sync_jobs.py`.

  Time model: an absolute instant is a number of minutes (an `Int`) since an
  epoch chosen to be 00:00 UTC on Monday 2024-01-01 (a Monday, so that day
  number 0 is a Monday and 2024-01-01 is day 0 of the civil calendar used for
  cron day-of-month / month matching).  A timezone is modelled as a fixed
  offset from UTC in minutes: the display timezone Asia/Taipei (UTC+8, no
  daylight saving) is offset 480.  A "wall clock" reading in a zone with
  offset `off` is `instant + off`; local midnights are exactly the multiples
  of 1440 of the wall value, the local time of day is `wall % 1440`, and the
  local day number is `wall / 1440` (Euclidean division, which agrees with
  Python's floor division for the positive divisors used here).
-/

namespace OpenClaw

abbrev Instant := Int

/-- Offset in minutes of the display timezone `Asia/Taipei` (`DISPLAY_TZ` in
`generate.py`), which is UTC+8 with no daylight saving. -/
def DISPLAY_TZ_OFFSET : Int := 480

/-- Modelled from `zoneinfo.ZoneInfo`: the IANA timezone database restricted
to the fixed-offset zones relevant to this repository.  A name not in the
table does not resolve (`ZoneInfo` raises `ZoneInfoNotFoundError`, modelled
as `none`). -/
def zoneInfo : String → Option Int
  | "UTC" => some 0
  | "Asia/Taipei" => some 480
  | "Asia/Tokyo" => some 540
  | "America/New_York" => some (-300)
  | _ => none

/-- A job record from `schedules/jobs.json` (see the data model in the spec
and `normalize` in `sync_jobs.py`). -/
structure Job where
  name : String
  description : String
  cron : String
  tz : String
  color : String
  tag : String

/-- The only Python exception that can escape `get_occurrences`: the
`ZoneInfoNotFoundError` raised by `ZoneInfo(job.get("tz", "UTC"))`, which is
evaluated before the `try` block.  Every other error is caught by
`except Exception: pass`. -/
inductive PyError where
  | zoneInfoNotFound
deriving DecidableEq

/- ----------------------------------------------------------------
   Civil calendar (for cron day-of-month / month / day-of-week fields).
   ---------------------------------------------------------------- -/

/-- Modelled from the proleptic Gregorian calendar used by `datetime` and
`croniter`: year, month and day of the civil date of day number `z` counted
from 1970-01-01 (Howard Hinnant's `civil_from_days` algorithm). -/
def civilFromDays (z : Int) : Int × Int × Int :=
  let z' := z + 719468
  let era := z' / 146097
  let doe := z' - era * 146097
  let yoe := (doe - doe / 1460 + doe / 36524 - doe / 146096) / 365
  let doy := doe - (365 * yoe + yoe / 4 - yoe / 100)
  let mp := (5 * doy + 2) / 153
  let d := doy - (153 * mp + 2) / 5 + 1
  let m := mp + (if mp < 10 then 3 else -9)
  (yoe + era * 400 + (if m ≤ 2 then 1 else 0), m, d)

/-- Month (1..12) of a wall-clock day number (our epoch day 0 is 2024-01-01,
which is day 19723 counted from 1970-01-01). -/
def monthOf (day : Int) : Int := (civilFromDays (day + 19723)).2.1

/-- Day of month (1..31) of a wall-clock day number. -/
def domOf (day : Int) : Int := (civilFromDays (day + 19723)).2.2

/-- Cron day-of-week (0 = Sunday) of a wall-clock day number; epoch day 0 is
a Monday, so Monday maps to 1 and Sunday to 0. -/
def cronDow (day : Int) : Int := (day % 7 + 1) % 7

/- ----------------------------------------------------------------
   Cron expressions (model of the `croniter` library).
   ---------------------------------------------------------------- -/

/-- One field of a 5-field cron expression, restricted to the subset of
`croniter` syntax exercised by this repository: a wildcard `*` or a single
numeric value. -/
inductive CronField where
  | any
  | val (n : Nat)
deriving DecidableEq

/-- A parsed 5-field cron expression (minute, hour, day of month, month,
day of week). -/
structure Cron where
  minute : CronField
  hour : CronField
  dom : CronField
  month : CronField
  dow : CronField
deriving DecidableEq

def fieldMatches : CronField → Int → Bool
  | .any, _ => true
  | .val n, v => v == (n : Int)

/-- Standard cron date matching, as implemented by `croniter` with its
default `day_or` behaviour: when both day-of-month and day-of-week are
restricted, a date matches if either field matches. -/
def dateMatches (c : Cron) (day : Int) : Bool :=
  fieldMatches c.month (monthOf day) &&
    (match c.dom, c.dow with
     | .any, .any => true
     | .any, _ => fieldMatches c.dow (cronDow day)
     | _, .any => fieldMatches c.dom (domOf day)
     | _, _ => fieldMatches c.dom (domOf day) || fieldMatches c.dow (cronDow day))

/-- Whether the cron expression fires at wall-clock minute `t` of its own
timezone. -/
def matchesAt (c : Cron) (t : Int) : Bool :=
  fieldMatches c.minute (t % 60) &&
    fieldMatches c.hour ((t / 60) % 24) &&
    dateMatches c (t / 1440)

/- Parser: model of the `croniter` constructor, which raises
`CroniterBadCronError` on a malformed expression (wrong field count, a
non-numeric token outside the modelled subset, or a value out of range). -/

def splitWS (s : List Char) : List (List Char) :=
  let p := s.foldr
    (fun c acc =>
      if c = ' ' ∨ c = '\t'
      then ([], if acc.1 = [] then acc.2 else acc.1 :: acc.2)
      else (c :: acc.1, acc.2))
    ([], [])
  if p.1 = [] then p.2 else p.1 :: p.2

def parseDigits : List Char → Nat → Option Nat
  | [], acc => some acc
  | c :: cs, acc =>
    if c.isDigit then parseDigits cs (10 * acc + (c.toNat - 48)) else none

def parseNatTok (s : List Char) : Option Nat :=
  if s = [] then none else parseDigits s 0

def parseField (lo hi : Nat) (s : List Char) : Option CronField :=
  if s = ['*'] then some .any
  else
    match parseNatTok s with
    | some n => if lo ≤ n ∧ n ≤ hi then some (.val n) else none
    | none => none

/-- Day-of-week field: `croniter` accepts 0..7 with both 0 and 7 meaning
Sunday. -/
def parseDowField (s : List Char) : Option CronField :=
  if s = ['*'] then some .any
  else
    match parseNatTok s with
    | some n => if n ≤ 7 then some (.val (if n = 7 then 0 else n)) else none
    | none => none

/-- Modelled from the `croniter(cron_expr, start)` constructor: parse a
5-field cron expression, failing (`None`, i.e. `CroniterBadCronError`) on a
wrong field count, a token outside the modelled subset, or an out-of-range
value. -/
def croniterParse (expr : String) : Option Cron :=
  match splitWS expr.data with
  | [f1, f2, f3, f4, f5] =>
    match parseField 0 59 f1, parseField 0 23 f2, parseField 1 31 f3,
        parseField 1 12 f4, parseDowField f5 with
    | some mi, some h, some dm, some mo, some dw =>
      some ⟨mi, h, dm, mo, dw⟩
    | _, _, _, _, _ => none
  | _ => none

/-- Search horizon of the modelled cron iterator, in minutes: `croniter`
gives up (raises `CroniterBadDateError`) if no matching time is found within
`max_years = 50` years of the current position. -/
def CRON_SEARCH_LIMIT : Nat := 1440 * 366 * 50

/-- Linear scan for the first minute `≥ t` matching `c`, with fuel. -/
def scanMatch (c : Cron) : Int → Nat → Option Int
  | _, 0 => none
  | t, fuel + 1 => if matchesAt c t then some t else scanMatch c (t + 1) fuel

/-- Modelled from `it.get_next(datetime)`: the smallest wall-clock minute
strictly after `pos` at which `c` fires, or `none` when the bounded search
fails (`CroniterBadDateError`).  The `.replace(tzinfo=job_tz)` in the source
is a no-op here because the iterator already works in the job's own
wall-clock time. -/
def croniterNext (c : Cron) (pos : Int) : Option Int :=
  scanMatch c (pos + 1) CRON_SEARCH_LIMIT

/- ----------------------------------------------------------------
   Occurrence expansion (`get_occurrences` in generate.py).
   ---------------------------------------------------------------- -/

/-- Wall-clock reading in the display timezone of the instant whose
wall-clock reading in the zone with offset `off` is `t`
(`next_run.astimezone(DISPLAY_TZ)`). -/
def toDisplayWall (off : Int) (t : Int) : Int :=
  t - off + DISPLAY_TZ_OFFSET

/-- Python's `datetime.weekday()` for a wall-clock minute: 0 = Monday, since
epoch day 0 is a Monday. -/
def dayIdx (wall : Int) : Int := (wall / 1440) % 7

/-- Hour component (0..23) of a wall-clock minute. -/
def wallHour (wall : Int) : Int := (wall % 1440) / 60

/-- Minute component (0..59) of a wall-clock minute. -/
def wallMinute (wall : Int) : Int := wall % 60

/-- Lines 30-31 of `generate.py`: the cron search window in the job's own
wall-clock time.  `week_days[0].astimezone(job_tz) - timedelta(hours=1)` and
`week_days[-1].astimezone(job_tz) + timedelta(hours=25)`; note `week_days[-1]`
is the 7th anchor (Sunday 00:00).  The source would raise `IndexError` on an
empty week list; weeks always have 7 anchors (the `headD`/`getLastD` defaults
are never exercised by the theorems below). -/
def search_window (off : Int) (week_days : List Instant) : Int × Int :=
  ((week_days.headD 0) + off - 60, (week_days.getLastD 0) + off + 25 * 60)

/-- The emission guard `if 0 <= day_idx <= 6` from line 42 of `generate.py`,
applied to the display-converted occurrence. -/
def keepFn (off : Int) (t : Int) : Bool :=
  decide (0 ≤ dayIdx (toDisplayWall off t)) &&
    decide (dayIdx (toDisplayWall off t) ≤ 6)

/-- The `while True` loop of `get_occurrences`, lines 34-43 of `generate.py`,
abstracted over the iterator `next`.  A `none` from the iterator models an
exception from `it.get_next`, which the surrounding `except Exception: pass`
turns into "stop with the results collected so far".  The fuel argument is a
modelling device for the unbounded Python loop; `get_occurrences` passes one
more than the window width in minutes, which can never be exhausted because
cron occurrences strictly increase (see `runLoop_length_le`). -/
def runLoop (next : Int → Option Int) (keep : Int → Bool) (week_end : Int) :
    Nat → Int → List Int
  | 0, _ => []
  | fuel + 1, pos =>
    match next pos with
    | none => []
    | some t =>
      if week_end < t then []
      else if keep t then t :: runLoop next keep week_end fuel t
      else runLoop next keep week_end fuel t

/-- The occurrence expansion of `get_occurrences` after the timezone has been
resolved to the offset `off`: the raw emitted occurrence times, in the job's
own wall clock.  A parse failure of the cron expression is caught by the
`except` block and yields no occurrences. -/
def get_occurrences_at (off : Int) (cron_expr : String)
    (week_days : List Instant) : List Int :=
  let ws := (search_window off week_days).1
  let we := (search_window off week_days).2
  match croniterParse cron_expr with
  | none => []
  | some c => runLoop (croniterNext c) (keepFn off) we ((we - ws).toNat + 1) ws

/-- The `(day_idx, hour, minute)` triple appended at line 43 of
`generate.py` for a raw occurrence time `t`. -/
def occTriple (off : Int) (t : Int) : Int × Int × Int :=
  (dayIdx (toDisplayWall off t), wallHour (toDisplayWall off t),
    wallMinute (toDisplayWall off t))

/-- Lines 24-47 of `generate.py`.  `ZoneInfo(job.get("tz", "UTC"))` is
evaluated before the `try` block, so an unknown timezone raises out of the
function; every error inside the loop is caught and the list collected so
far is returned. -/
def get_occurrences (job : Job) (week_days : List Instant) :
    Except PyError (List (Int × Int × Int)) :=
  match zoneInfo job.tz with
  | none => .error .zoneInfoNotFound
  | some off => .ok ((get_occurrences_at off job.cron week_days).map (occTriple off))

/- ----------------------------------------------------------------
   Week construction (`get_week_range` in generate.py).
   ---------------------------------------------------------------- -/

/-- The display-local day number of the Monday of the week containing `now`
(the intermediate `monday` of `get_week_range`: subtract `weekday()` days,
then zero the time fields). -/
def mondayDayNum (now : Instant) : Int :=
  let day := (now + DISPLAY_TZ_OFFSET) / 1440
  day - day % 7

/-- Lines 17-22 of `generate.py`: the 7 day anchors (absolute instants of
Monday 00:00 .. Sunday 00:00 in the display timezone) of the week containing
`now`. -/
def get_week_range (now : Instant) : List Instant :=
  (List.range 7).map
    (fun i => (1440 * mondayDayNum now - DISPLAY_TZ_OFFSET) + 1440 * (i : Int))

/- ----------------------------------------------------------------
   Legend colors (`generate_html` lines 60-62 and 86-89).
   ---------------------------------------------------------------- -/

/-- Model of one Python dict assignment `d[k] = v` on an insertion-ordered
association list with unique keys: update the value in place if the key is
present, otherwise append. -/
def dictSet : List (String × String) → String → String → List (String × String)
  | [], k, v => [(k, v)]
  | p :: rest, k, v =>
    if p.1 == k then (k, v) :: rest else p :: dictSet rest k v

/-- Lines 60-62 of `generate.py`: `tag_colors[job["tag"]] = job["color"]`
over the job list, producing the legend's tag-to-color mapping in
first-insertion order with last-written values. -/
def tag_colors (jobs : List Job) : List (String × String) :=
  jobs.foldl (fun m j => dictSet m j.tag j.color) []

/- ----------------------------------------------------------------
   Job synchronizer (`sync_jobs.py`).
   ---------------------------------------------------------------- -/

/-- A job as returned by the external scheduler query, with the `.get`
defaults of `normalize` already applied to absent keys. -/
structure RawJob where
  name : String
  description : String
  expr : String
  tz : String

/-- Result of the `openclaw cron list --json` subprocess.  `stdout_json` is
the parse of standard output: the outer `none` models output that is not
valid JSON (`json.loads` raises), the inner `none` models a JSON object
without a `"jobs"` key (`data.get("jobs", [])` then yields `[]`). -/
structure ProcResult where
  returncode : Int
  stdout_json : Option (Option (List RawJob))

/-- Lines 28-37 of `sync_jobs.py`: non-zero exit of the subprocess leads to
`sys.exit(1)`; an unparseable stdout raises `JSONDecodeError`, which is
uncaught and also terminates the process with exit status 1.  Both are
modelled as `Except.error` carrying the process exit code. -/
def get_openclaw_jobs (r : ProcResult) : Except Int (List RawJob) :=
  if r.returncode ≠ 0 then .error 1
  else
    match r.stdout_json with
    | none => .error 1
    | some d => .ok (d.getD [])

def TAG_COLORS : List (String × String) :=
  [("openclaw", "#4A90D9"), ("github-actions", "#E67E22")]

def NAME_COLORS : List (String × String) :=
  [("daily-review", "#4A90D9"), ("stock-forum-daily", "#27AE60"),
   ("weekly-review", "#8E44AD"), ("generate-calendar", "#E67E22")]

/-- Lines 39-77 of `sync_jobs.py`: prepend the fixed `generate-calendar`
job, then map each fetched job to a store record, preserving the color of a
previously stored job with the same name, else falling back to `NAME_COLORS`
and then to `"#58A6FF"`.  `old` is the previous content of
`schedules/jobs.json` (empty when the file does not exist). -/
def normalize (old : List Job) (jobs : List RawJob) : List Job :=
  let genCal : Job :=
    ⟨"generate-calendar", "自動產生本週曆頁面並 push 到 GitHub Pages",
      "0 0 * * *", "UTC",
      (List.lookup "generate-calendar" NAME_COLORS).getD "#E67E22",
      "github-actions"⟩
  genCal :: jobs.map (fun j =>
    ⟨j.name, j.description, j.expr, (if j.tz = "" then "UTC" else j.tz),
      (match old.find? (fun o => o.name == j.name) with
       | some o => o.color
       | none => (List.lookup j.name NAME_COLORS).getD "#58A6FF"),
      "openclaw"⟩)

/-- Outcome of one run of `sync_jobs.main`: the process exit code and the
content of the on-disk job store after the run. -/
structure SyncResult where
  exitCode : Int
  store : List Job

/-- Lines 79-90 of `sync_jobs.py` up to the store write: `get_openclaw_jobs`
runs first, so on fetch failure the process terminates (exit code 1) before
`open(JOBS_PATH, "w")` is reached and the store keeps its prior contents.
On success the normalized list is written; the subsequent render and git
steps do not touch the store and are outside this model. -/
def sync_main (old : List Job) (proc : ProcResult) : SyncResult :=
  match get_openclaw_jobs proc with
  | .error c => ⟨c, old⟩
  | .ok jobs => ⟨0, normalize old jobs⟩

/- ----------------------------------------------------------------
   Basic lemmas about the expansion loop and the cron iterator.
   ---------------------------------------------------------------- -/

set_option maxRecDepth 100000

theorem runLoop_zero (next : Int → Option Int) (keep : Int → Bool)
    (e pos : Int) : runLoop next keep e 0 pos = [] := rfl

theorem runLoop_succ (next : Int → Option Int) (keep : Int → Bool) (e : Int)
    (fuel : Nat) (pos : Int) :
    runLoop next keep e (fuel + 1) pos =
      match next pos with
      | none => []
      | some t =>
        if e < t then []
        else if keep t then t :: runLoop next keep e fuel t
        else runLoop next keep e fuel t := rfl

theorem runLoop_step {next : Int → Option Int} {keep : Int → Bool} {e : Int}
    {fuel : Nat} {pos t : Int} (h1 : next pos = some t) (h2 : ¬ e < t)
    (h3 : keep t = true) :
    runLoop next keep e (fuel + 1) pos = t :: runLoop next keep e fuel t := by
  rw [runLoop_succ, h1]
  simp [h2, h3]

theorem runLoop_skip {next : Int → Option Int} {keep : Int → Bool} {e : Int}
    {fuel : Nat} {pos t : Int} (h1 : next pos = some t) (h2 : ¬ e < t)
    (h3 : keep t = false) :
    runLoop next keep e (fuel + 1) pos = runLoop next keep e fuel t := by
  rw [runLoop_succ, h1]
  simp [h2, h3]

theorem runLoop_next_none {next : Int → Option Int} {keep : Int → Bool}
    {e : Int} {fuel : Nat} {pos : Int} (h : next pos = none) :
    runLoop next keep e (fuel + 1) pos = [] := by
  rw [runLoop_succ, h]

theorem runLoop_next_break {next : Int → Option Int} {keep : Int → Bool}
    {e : Int} {fuel : Nat} {pos t : Int} (h : next pos = some t) (ht : e < t) :
    runLoop next keep e (fuel + 1) pos = [] := by
  rw [runLoop_succ, h]
  simp [ht]

theorem scanMatch_le {c : Cron} (fuel : Nat) :
    ∀ (t r : Int), scanMatch c t fuel = some r → t ≤ r := by
  induction fuel with
  | zero => intro t r hsc; simp [scanMatch] at hsc
  | succ fuel ih =>
    intro t r hsc
    simp only [scanMatch] at hsc
    by_cases hm : matchesAt c t
    · rw [if_pos hm] at hsc
      cases hsc
      omega
    · rw [if_neg hm] at hsc
      have := ih (t + 1) r hsc
      omega

theorem scanMatch_eq_some {c : Cron} {tstar : Int}
    (hmatch : matchesAt c tstar = true) :
    ∀ (fuel : Nat) (start : Int), start ≤ tstar → tstar < start + (fuel : Int) →
      (∀ u, start ≤ u → u < tstar → matchesAt c u = false) →
      scanMatch c start fuel = some tstar := by
  intro fuel
  induction fuel with
  | zero =>
    intro start h1 h2 _
    exfalso
    push_cast at h2
    omega
  | succ fuel ih =>
    intro start h1 h2 hmin
    simp only [scanMatch]
    by_cases he : start = tstar
    · subst he
      simp [hmatch]
    · have hlt : start < tstar := by omega
      have hfalse : matchesAt c start = false := hmin start le_rfl hlt
      rw [if_neg (by simp [hfalse])]
      apply ih
      · omega
      · push_cast at h2 ⊢
        omega
      · intro u hu1 hu2
        exact hmin u (by omega) hu2

theorem croniterNext_lt {c : Cron} {p t : Int}
    (hn : croniterNext c p = some t) : p < t := by
  simp only [croniterNext] at hn
  have := scanMatch_le CRON_SEARCH_LIMIT (p + 1) t hn
  omega

theorem matchesAt_daily {h m : Nat} (hh : h ≤ 23) (hm : m ≤ 59) (t : Int) :
    matchesAt ⟨.val m, .val h, .any, .any, .any⟩ t = true ↔
      t % 1440 = 60 * (h : Int) + m := by
  have hdate : dateMatches ⟨.val m, .val h, .any, .any, .any⟩ (t / 1440) = true := rfl
  simp only [matchesAt, hdate, fieldMatches, Bool.and_true, Bool.and_eq_true,
    beq_iff_eq]
  omega

theorem croniterNext_daily {h m : Nat} (hh : h ≤ 23) (hm : m ≤ 59) (pos : Int) :
    croniterNext ⟨.val m, .val h, .any, .any, .any⟩ pos =
      some (pos + 1 + (60 * (h : Int) + m - (pos + 1)) % 1440) := by
  simp only [croniterNext]
  apply scanMatch_eq_some
  · rw [matchesAt_daily hh hm]
    omega
  · omega
  · simp only [CRON_SEARCH_LIMIT]
    push_cast
    omega
  · intro u hu1 hu2
    rw [← Bool.not_eq_true, matchesAt_daily hh hm] at *
    omega

theorem keepFn_eq_true (off t : Int) : keepFn off t = true := by
  simp only [keepFn, dayIdx, Bool.and_eq_true, decide_eq_true_eq]
  omega

theorem runLoop_length_le {next : Int → Option Int}
    (hwf : ∀ p t, next p = some t → p < t) (keep : Int → Bool) (e : Int)
    (fuel : Nat) : ∀ (pos : Int),
      (runLoop next keep e fuel pos).length ≤ (e - pos).toNat := by
  induction fuel with
  | zero => intro pos; simp [runLoop_zero]
  | succ fuel ih =>
    intro pos
    cases hn : next pos with
    | none => rw [runLoop_next_none hn]; simp
    | some t =>
      have hlt := hwf pos t hn
      have hb := ih t
      by_cases ht : e < t
      · rw [runLoop_next_break hn ht]; simp
      · cases hk : keep t with
        | true =>
          rw [runLoop_step hn ht hk]
          simp only [List.length_cons]
          omega
        | false =>
          rw [runLoop_skip hn ht hk]
          omega

theorem runLoop_mem {next : Int → Option Int}
    (hwf : ∀ p t, next p = some t → p < t) (keep : Int → Bool) (e : Int)
    (fuel : Nat) : ∀ (pos t : Int), t ∈ runLoop next keep e fuel pos →
      pos < t ∧ t ≤ e := by
  induction fuel with
  | zero => intro pos t hmem; simp [runLoop_zero] at hmem
  | succ fuel ih =>
    intro pos t hmem
    cases hn : next pos with
    | none => rw [runLoop_next_none hn] at hmem; simp at hmem
    | some u =>
      have hu := hwf pos u hn
      by_cases he : e < u
      · rw [runLoop_next_break hn he] at hmem; simp at hmem
      · cases hk : keep u with
        | true =>
          rw [runLoop_step hn he hk] at hmem
          rcases List.mem_cons.mp hmem with h1 | h1
          · subst h1; omega
          · have := ih u t h1; omega
        | false =>
          rw [runLoop_skip hn he hk] at hmem
          have := ih u t hmem
          omega

theorem runLoop_daily_chain {h m : Nat} (hh : h ≤ 23) (hm : m ≤ 59)
    {keep : Int → Bool} (hkeep : ∀ t, keep t = true) (e : Int) :
    ∀ (j : Nat) (fuel : Nat) (pos : Int),
      pos % 1440 = 60 * (h : Int) + m →
      pos + 1440 * j ≤ e → e < pos + 1440 * (j + 1) → j < fuel →
      runLoop (croniterNext ⟨.val m, .val h, .any, .any, .any⟩) keep e fuel pos =
        (List.range j).map (fun i : Nat => pos + 1440 * ((i : Int) + 1)) := by
  intro j
  induction j with
  | zero =>
    intro fuel pos hpos h1 h2 hf
    obtain ⟨f, rfl⟩ : ∃ f, fuel = f + 1 := ⟨fuel - 1, by omega⟩
    have hnext : croniterNext ⟨.val m, .val h, .any, .any, .any⟩ pos
        = some (pos + 1440) := by
      rw [croniterNext_daily hh hm]
      congr 1
      omega
    have he : e < pos + 1440 := by push_cast at h2; omega
    rw [runLoop_next_break hnext he]
    simp
  | succ j ih =>
    intro fuel pos hpos h1 h2 hf
    obtain ⟨f, rfl⟩ : ∃ f, fuel = f + 1 := ⟨fuel - 1, by omega⟩
    have hnext : croniterNext ⟨.val m, .val h, .any, .any, .any⟩ pos
        = some (pos + 1440) := by
      rw [croniterNext_daily hh hm]
      congr 1
      omega
    have hle : ¬ e < pos + 1440 := by push_cast at h1; omega
    rw [runLoop_step hnext hle (hkeep _)]
    rw [ih f (pos + 1440) (by omega) (by push_cast at h1 ⊢; omega)
      (by push_cast at h2 ⊢; omega) (by omega)]
    rw [List.range_succ_eq_map, List.map_cons, List.map_map]
    congr 1
    congr 1
    funext i
    simp only [Function.comp_apply]
    push_cast
    ring

/- ----------------------------------------------------------------
   Lemmas about the week construction.
   ---------------------------------------------------------------- -/

theorem mondayDayNum_emod7 (now : Instant) :
    mondayDayNum now % 7 = 0 := by
  simp only [mondayDayNum]
  omega

theorem get_week_range_headD (now : Instant) :
    (get_week_range now).headD 0 = 1440 * mondayDayNum now - DISPLAY_TZ_OFFSET := by
  have h7 : List.range 7 = [0, 1, 2, 3, 4, 5, 6] := rfl
  rw [get_week_range, h7]
  simp

theorem get_week_range_getLastD (now : Instant) :
    (get_week_range now).getLastD 0
      = 1440 * mondayDayNum now - DISPLAY_TZ_OFFSET + 8640 := by
  have h7 : List.range 7 = [0, 1, 2, 3, 4, 5, 6] := rfl
  rw [get_week_range, h7]
  simp [List.getLastD]

/- ----------------------------------------------------------------
   Lemmas about the legend mapping.
   ---------------------------------------------------------------- -/

theorem lookup_cons {β : Type} (k a : String) (b : β) (es : List (String × β)) :
    List.lookup k ((a, b) :: es) = if k = a then some b else List.lookup k es := by
  simp only [List.lookup]
  by_cases hk : k = a
  · subst hk; simp
  · have hb : (k == a) = false := by simp [hk]
    simp [hb, hk]

theorem lookup_dictSet (m : List (String × String)) (k v k' : String) :
    List.lookup k' (dictSet m k v) = if k' = k then some v else List.lookup k' m := by
  induction m with
  | nil =>
    simp only [dictSet]
    rw [lookup_cons]
  | cons p rest ih =>
    obtain ⟨p1, p2⟩ := p
    simp only [dictSet]
    by_cases hpk : p1 = k
    · subst hpk
      rw [if_pos (by simp), lookup_cons, lookup_cons]
      by_cases hk : k' = p1 <;> simp [hk]
    · rw [if_neg (by simp [hpk]), lookup_cons, ih, lookup_cons]
      by_cases hk1 : k' = p1 <;> by_cases hk2 : k' = k <;> simp_all

theorem keys_dictSet (m : List (String × String)) (k v : String) :
    (dictSet m k v).map Prod.fst =
      if k ∈ m.map Prod.fst then m.map Prod.fst else m.map Prod.fst ++ [k] := by
  induction m with
  | nil => simp [dictSet]
  | cons p rest ih =>
    obtain ⟨p1, p2⟩ := p
    simp only [dictSet]
    by_cases hpk : p1 = k
    · subst hpk
      rw [if_pos (by simp)]
      simp
    · rw [if_neg (by simp [hpk])]
      simp only [List.map_cons, ih]
      by_cases hmem : k ∈ rest.map Prod.fst
      · rw [if_pos hmem, if_pos (List.mem_cons_of_mem p1 hmem)]
      · have h1 : k ∉ p1 :: rest.map Prod.fst := by
          rw [List.mem_cons]
          rintro (hx | hx)
          · exact hpk hx.symm
          · exact hmem hx
        rw [if_neg hmem, if_neg h1, List.cons_append]

theorem keys_nodup_dictSet (m : List (String × String)) (k v : String)
    (hm : (m.map Prod.fst).Nodup) : ((dictSet m k v).map Prod.fst).Nodup := by
  rw [keys_dictSet]
  by_cases hmem : k ∈ m.map Prod.fst
  · simp [hmem, hm]
  · rw [if_neg hmem, List.nodup_append]
    refine ⟨hm, List.nodup_singleton k, ?_⟩
    intro a ha hb
    rw [List.mem_singleton] at hb
    subst hb
    exact hmem ha

theorem lookup_isSome_iff {β : Type} (k : String) (m : List (String × β)) :
    (List.lookup k m).isSome = true ↔ k ∈ m.map Prod.fst := by
  induction m with
  | nil => simp [List.lookup]
  | cons p rest ih =>
    obtain ⟨p1, p2⟩ := p
    rw [lookup_cons]
    by_cases hk : k = p1 <;> simp [hk, ih]

theorem tag_colors_foldl (tg : String) (jobs : List Job) :
    ∀ (m0 : List (String × String)),
      List.lookup tg (jobs.foldl (fun m j => dictSet m j.tag j.color) m0) =
        (((jobs.filter (fun j => j.tag == tg)).getLast?).map Job.color).or
          (List.lookup tg m0) := by
  induction jobs with
  | nil => intro m0; simp
  | cons j rest ih =>
    intro m0
    rw [List.foldl_cons, ih, lookup_dictSet]
    by_cases hjt : j.tag = tg
    · rw [List.filter_cons_of_pos (by simp [hjt]), if_pos hjt.symm]
      cases hrest : rest.filter (fun j => j.tag == tg) with
      | nil => simp [Option.or]
      | cons q qs =>
        rw [List.getLast?_cons_cons,
          List.getLast?_eq_getLast_of_ne_nil (List.cons_ne_nil q qs)]
        simp [Option.or]
    · rw [List.filter_cons_of_neg (by simp [hjt]), if_neg (fun hc => hjt hc.symm)]

theorem tag_colors_keys_nodup_foldl (jobs : List Job) :
    ∀ (m0 : List (String × String)), (m0.map Prod.fst).Nodup →
      ((jobs.foldl (fun m j => dictSet m j.tag j.color) m0).map Prod.fst).Nodup := by
  induction jobs with
  | nil => intro m0 hm; simpa using hm
  | cons j rest ih =>
    intro m0 hm
    rw [List.foldl_cons]
    exact ih _ (keys_nodup_dictSet _ _ _ hm)

theorem search_window_week (off : Int) (now : Instant) :
    search_window off (get_week_range now) =
      (1440 * mondayDayNum now - DISPLAY_TZ_OFFSET + off - 60,
       1440 * mondayDayNum now - DISPLAY_TZ_OFFSET + 8640 + off + 1500) := by
  rw [search_window, get_week_range_headD, get_week_range_getLastD]
  norm_num

/- ----------------------------------------------------------------
   Reductions of get_occurrences_at.
   ---------------------------------------------------------------- -/

theorem get_occurrences_at_noparse (off : Int) (s : String) (wk : List Instant)
    (hs : croniterParse s = none) : get_occurrences_at off s wk = [] := by
  simp only [get_occurrences_at, hs]

theorem get_occurrences_at_parse (off : Int) (s : String) (wk : List Instant)
    (c : Cron) (hs : croniterParse s = some c) :
    get_occurrences_at off s wk =
      runLoop (croniterNext c) (keepFn off) (wk.getLastD 0 + off + 25 * 60)
        ((wk.getLastD 0 + off + 25 * 60 - (wk.headD 0 + off - 60)).toNat + 1)
        (wk.headD 0 + off - 60) := by
  simp only [get_occurrences_at, search_window, hs]

/- ----------------------------------------------------------------
   Claim theorems.
   ---------------------------------------------------------------- -/

/-- C1: the spec requires an unresolvable `tz` to be caught inside
`get_occurrences` with the job contributing zero occurrences, but
`ZoneInfo(job.get("tz", "UTC"))` is evaluated before the `try` block of
`generate.py`, so the `ZoneInfoNotFoundError` propagates out of the expander
(and aborts the whole render, since `generate_html` does not catch it).
This theorem evaluates the code at a failing input: a job with an unknown
timezone makes `get_occurrences` raise instead of returning a list. -/
theorem tz_resolution_error_propagates :
    get_occurrences
        ⟨"daily-review", "", "0 12 * * *", "Mars/Olympus", "#4A90D9", "openclaw"⟩
        (get_week_range 10000) = .error .zoneInfoNotFound := rfl

/-- C4 (counterexample): at the concrete week whose Monday anchor is the
instant 9600 (display wall minute 10080), the upper bound of the search
window computed by `generate.py` for a UTC job is `Sunday 00:00 + 25h`
(instant 19740), which differs from the claimed `start-of-day-8 + 25h`
(instant 21180): `week_days[-1]` is the 7th anchor, Sunday 00:00, not the
following Monday 00:00. -/
theorem search_window_upper_counterexample :
    (get_week_range 10000).headD 0 = 9600 ∧
    (search_window 0 (get_week_range 10000)).2 = 9600 + 6 * 1440 + 0 + 25 * 60 ∧
    (search_window 0 (get_week_range 10000)).2 ≠ 9600 + 7 * 1440 + 0 + 25 * 60 := by
  refine ⟨rfl, by decide, by decide⟩

/-- C4 (amended): for every job-timezone offset and every week, the search
window of `get_occurrences` has lower bound the display week's first anchor
(Monday 00:00) in the job's timezone minus 1 hour — as claimed — and upper
bound the week's *last* anchor (Sunday 00:00, the start of day 7, i.e.
`week_days[-1]`) in the job's timezone plus 25 hours, not the start of day 8
as claimed. -/
theorem search_window_bounds (off : Int) (now : Instant) :
    search_window off (get_week_range now) =
      ((1440 * mondayDayNum now - DISPLAY_TZ_OFFSET) + off - 60,
       ((1440 * mondayDayNum now - DISPLAY_TZ_OFFSET) + 6 * 1440) + off + 25 * 60) := by
  rw [search_window_week]
  norm_num

/-- C6: a job whose cron expression does not parse as a 5-field cron
expression (the `croniter` constructor raises) yields the empty occurrence
list, and no error escapes `get_occurrences`: the exception is caught by the
`except Exception: pass` block and the empty `results` list is returned. -/
theorem invalid_cron_empty (job : Job) (week_days : List Instant) (off : Int)
    (htz : zoneInfo job.tz = some off)
    (hcron : croniterParse job.cron = none) :
    get_occurrences job week_days = .ok [] := by
  simp only [get_occurrences, htz, get_occurrences_at_noparse off job.cron week_days hcron,
    List.map_nil]

theorem invalid_cron_empty_witness :
    zoneInfo "UTC" = some 0 ∧ croniterParse "* * * *" = none ∧
    get_occurrences ⟨"j", "", "* * * *", "UTC", "#58A6FF", "misc"⟩
      (get_week_range 10000) = .ok [] :=
  ⟨rfl, rfl,
    invalid_cron_empty ⟨"j", "", "* * * *", "UTC", "#58A6FF", "misc"⟩
      (get_week_range 10000) 0 rfl rfl⟩

/-- C7: whenever `get_occurrences` returns a list (timezone resolved, all
iterator errors caught), its length is bounded by 9 days' worth of minutes:
the stop test compares the raw occurrence against `week_end` in job-local
time, the window is `(last anchor + 25h) - (first anchor - 1h)` = 10200
minutes ≤ 9 days wide, and successive cron occurrences strictly increase
(`croniterNext_lt`), so at most one occurrence per minute of the window is
collected and the loop terminates. -/
theorem occurrence_count_bounded (job : Job) (now : Instant)
    (l : List (Int × Int × Int))
    (hok : get_occurrences job (get_week_range now) = .ok l) :
    l.length ≤ 9 * 1440 := by
  rcases hz : zoneInfo job.tz with _ | off
  · rw [get_occurrences, hz] at hok
    cases hok
  · rw [get_occurrences, hz] at hok
    cases hok
    rw [List.length_map]
    cases hp : croniterParse job.cron with
    | none => rw [get_occurrences_at_noparse off job.cron _ hp]; simp
    | some c =>
      rw [get_occurrences_at_parse off job.cron _ c hp]
      have hb := @runLoop_length_le (croniterNext c)
        (fun p u hu => croniterNext_lt hu) (keepFn off)
        ((get_week_range now).getLastD 0 + off + 25 * 60)
        (((get_week_range now).getLastD 0 + off + 25 * 60 -
            ((get_week_range now).headD 0 + off - 60)).toNat + 1)
        ((get_week_range now).headD 0 + off - 60)
      rw [get_week_range_headD, get_week_range_getLastD] at hb ⊢
      omega

theorem occurrence_count_bounded_witness :
    get_occurrences ⟨"k", "", "not a cron", "UTC", "#58A6FF", "misc"⟩
      (get_week_range 10000) = .ok [] ∧
    ([] : List (Int × Int × Int)).length ≤ 9 * 1440 :=
  ⟨rfl, occurrence_count_bounded ⟨"k", "", "not a cron", "UTC", "#58A6FF", "misc"⟩
    10000 [] rfl⟩

/-- C8: if the external scheduler query fails — non-zero subprocess exit
code or standard output that is not parseable JSON — the sync entry point
terminates with a non-zero exit status before reaching
`open(JOBS_PATH, "w")`, so the job store keeps its prior contents. -/
theorem sync_failure_preserves_store (old : List Job) (proc : ProcResult)
    (hfail : proc.returncode ≠ 0 ∨ proc.stdout_json = none) :
    (sync_main old proc).exitCode ≠ 0 ∧ (sync_main old proc).store = old := by
  rcases hfail with hc | hj
  · simp [sync_main, get_openclaw_jobs, hc]
  · by_cases hc : proc.returncode = 0
    · simp [sync_main, get_openclaw_jobs, hc, hj]
    · simp [sync_main, get_openclaw_jobs, hc]

theorem sync_failure_preserves_store_witness :
    (sync_main [] ⟨1, some (some [])⟩).exitCode ≠ 0 ∧
    (sync_main [] ⟨1, some (some [])⟩).store = [] :=
  sync_failure_preserves_store [] ⟨1, some (some [])⟩ (Or.inl (by decide))

/-- C9: the legend mapping `tag_colors` built by `generate_html` has
pairwise-distinct keys (exactly one entry per distinct tag), a key is
present exactly when some job carries that tag, and the color stored for a
tag is the color of the *last* job with that tag in input iteration order
(`dict` assignment overwrites, so last-seen wins); in particular, for input
order [A(color1), B(color2)] with a shared tag the legend shows color2. -/
theorem legend_last_color_wins (jobs : List Job) :
    ((tag_colors jobs).map Prod.fst).Nodup ∧
    (∀ tg, tg ∈ (tag_colors jobs).map Prod.fst ↔ ∃ j ∈ jobs, j.tag = tg) ∧
    (∀ tg, List.lookup tg (tag_colors jobs) =
      ((jobs.filter (fun j => j.tag == tg)).getLast?).map Job.color) := by
  have hlk : ∀ tg, List.lookup tg (tag_colors jobs) =
      ((jobs.filter (fun j => j.tag == tg)).getLast?).map Job.color := by
    intro tg
    rw [tag_colors, tag_colors_foldl tg jobs []]
    simp only [List.lookup, Option.or_none]
  refine ⟨tag_colors_keys_nodup_foldl jobs [] (by simp), ?_, hlk⟩
  intro tg
  rw [← lookup_isSome_iff, hlk tg, Option.isSome_map']
  rw [List.getLast?_isSome]
  constructor
  · intro hne
    rcases List.exists_mem_of_ne_nil _ hne with ⟨j, hj⟩
    rw [List.mem_filter] at hj
    exact ⟨j, hj.1, by simpa using hj.2⟩
  · rintro ⟨j, hjmem, hjtag⟩
    intro hnil
    rw [List.filter_eq_nil_iff] at hnil
    exact hnil j hjmem (by simp [hjtag])

/-- C10: if the cron iterator fails in the middle of the expansion loop
(modelled by `next` returning `none` at the current position) after an
occurrence has already been collected, the loop of `get_occurrences`
returns the partial list collected before the error — the
`except Exception: pass` around the loop keeps `results` — not the empty
list: here one occurrence `t` is collected, then the iterator fails, and
the result is `[t]`. -/
theorem loop_returns_partial_on_failure (next : Int → Option Int)
    (keep : Int → Bool) (e : Int) (fuel : Nat) (pos t : Int)
    (h1 : next pos = some t) (h2 : ¬ e < t) (h3 : keep t = true)
    (h4 : next t = none) :
    runLoop next keep e (fuel + 2) pos = [t] := by
  rw [show fuel + 2 = (fuel + 1) + 1 from rfl, runLoop_step h1 h2 h3,
    runLoop_next_none h4]

theorem loop_returns_partial_on_failure_witness :
    runLoop (fun p => if p = 0 then some 5 else none) (fun _ => true) 100 2 0
      = [5] :=
  loop_returns_partial_on_failure (fun p => if p = 0 then some 5 else none)
    (fun _ => true) 100 0 0 5 rfl (by decide) rfl rfl

/-- C2 (amended): for a job whose cron expression parses as a once-daily
cron firing at hour `h`, minute `m`, whose timezone resolves to the display
timezone, and whose firing time lies strictly after 01:00 and at or before
23:00, `get_occurrences` over the 7-anchor week returns exactly 7
occurrences, one for each day index 0..6, at `(h, m)`.  (Without the
firing-time restriction the claim is false: the padded window admits an 8th
occurrence — see `daily_cron_seven_counterexample`.) -/
theorem daily_cron_week_occurrences (job : Job) (now : Instant) (h m : Nat)
    (hcron : croniterParse job.cron = some ⟨.val m, .val h, .any, .any, .any⟩)
    (htz : zoneInfo job.tz = some DISPLAY_TZ_OFFSET)
    (hh : h ≤ 23) (hm : m ≤ 59)
    (hlo : 60 < 60 * h + m) (hhi : 60 * h + m ≤ 1380) :
    get_occurrences job (get_week_range now) =
      .ok [((0 : Int), (h : Int), (m : Int)), (1, h, m), (2, h, m), (3, h, m),
        (4, h, m), (5, h, m), (6, h, m)] := by
  have hM7 := mondayDayNum_emod7 now
  simp only [get_occurrences, htz]
  rw [get_occurrences_at_parse _ _ _ _ hcron, get_week_range_headD,
    get_week_range_getLastD]
  have hstep : croniterNext ⟨.val m, .val h, .any, .any, .any⟩
      (1440 * mondayDayNum now - DISPLAY_TZ_OFFSET + DISPLAY_TZ_OFFSET - 60)
      = some (1440 * mondayDayNum now + (60 * (h : Int) + m)) := by
    rw [croniterNext_daily hh hm]
    congr 1
    simp only [DISPLAY_TZ_OFFSET]
    omega
  rw [@runLoop_step (croniterNext ⟨.val m, .val h, .any, .any, .any⟩)
    (keepFn DISPLAY_TZ_OFFSET)
    (1440 * mondayDayNum now - DISPLAY_TZ_OFFSET + 8640 + DISPLAY_TZ_OFFSET + 25 * 60)
    (Int.toNat
      (1440 * mondayDayNum now - DISPLAY_TZ_OFFSET + 8640 + DISPLAY_TZ_OFFSET + 25 * 60 -
        (1440 * mondayDayNum now - DISPLAY_TZ_OFFSET + DISPLAY_TZ_OFFSET - 60)))
    (1440 * mondayDayNum now - DISPLAY_TZ_OFFSET + DISPLAY_TZ_OFFSET - 60)
    (1440 * mondayDayNum now + (60 * (h : Int) + m))
    hstep (by simp only [DISPLAY_TZ_OFFSET]; omega) (keepFn_eq_true _ _)]
  rw [runLoop_daily_chain hh hm (fun t => keepFn_eq_true DISPLAY_TZ_OFFSET t)
    (1440 * mondayDayNum now - DISPLAY_TZ_OFFSET + 8640 + DISPLAY_TZ_OFFSET + 25 * 60)
    6
    (Int.toNat
      (1440 * mondayDayNum now - DISPLAY_TZ_OFFSET + 8640 + DISPLAY_TZ_OFFSET + 25 * 60 -
        (1440 * mondayDayNum now - DISPLAY_TZ_OFFSET + DISPLAY_TZ_OFFSET - 60)))
    (1440 * mondayDayNum now + (60 * (h : Int) + m))
    (by omega)
    (by simp only [DISPLAY_TZ_OFFSET]; push_cast; omega)
    (by simp only [DISPLAY_TZ_OFFSET]; push_cast; omega)
    (by simp only [DISPLAY_TZ_OFFSET]; omega)]
  have h6 : List.range 6 = [0, 1, 2, 3, 4, 5] := rfl
  rw [h6]
  simp only [List.map_cons, List.map_nil, Except.ok.injEq, List.cons.injEq,
    and_true, occTriple, toDisplayWall, dayIdx, wallHour, wallMinute,
    DISPLAY_TZ_OFFSET, Prod.mk.injEq]
  push_cast
  omega

theorem daily_cron_week_occurrences_witness :
    croniterParse "0 12 * * *" = some ⟨.val 0, .val 12, .any, .any, .any⟩ ∧
    zoneInfo "Asia/Taipei" = some DISPLAY_TZ_OFFSET ∧
    get_occurrences
        ⟨"daily-review", "", "0 12 * * *", "Asia/Taipei", "#4A90D9", "openclaw"⟩
        (get_week_range 10000) =
      .ok [((0 : Int), (12 : Int), (0 : Int)), (1, 12, 0), (2, 12, 0),
        (3, 12, 0), (4, 12, 0), (5, 12, 0), (6, 12, 0)] :=
  ⟨rfl, rfl,
    daily_cron_week_occurrences
      ⟨"daily-review", "", "0 12 * * *", "Asia/Taipei", "#4A90D9", "openclaw"⟩
      10000 12 0 rfl rfl (by omega) (by omega) (by omega) (by omega)⟩

/-- C2 (counterexample): a job firing daily at 23:30 with `tz` equal to the
display timezone produces 8 occurrences over the week whose Monday anchor is
instant 9600 — the padded window picks up the previous Sunday's 23:30 as
well, so day index 6 appears twice and the count is not 7. -/
theorem daily_cron_seven_counterexample :
    get_occurrences
        ⟨"late-daily", "", "30 23 * * *", "Asia/Taipei", "#4A90D9", "openclaw"⟩
        (get_week_range 10000) =
      .ok [((6 : Int), (23 : Int), (30 : Int)), (0, 23, 30), (1, 23, 30),
        (2, 23, 30), (3, 23, 30), (4, 23, 30), (5, 23, 30), (6, 23, 30)] ∧
    ([((6 : Int), (23 : Int), (30 : Int)), (0, 23, 30), (1, 23, 30),
      (2, 23, 30), (3, 23, 30), (4, 23, 30), (5, 23, 30),
      (6, 23, 30)] : List (Int × Int × Int)).length ≠ 7 := by
  constructor
  · rfl
  · decide

/-- C3 (amended): every occurrence emitted by the expansion lies inside the
*padded* window — its display-timezone instant lies in
`(Monday 00:00 - 1h, following Monday 00:00 + 1h]` — but not necessarily
inside the requested week `[Monday 00:00, following Monday 00:00)`: the
`0 <= day_idx <= 6` check is vacuous (`weekday()` always lies in 0..6), so
boundary occurrences of the adjacent weeks inside the 1-hour pad are
emitted (see `occurrence_outside_week_counterexample`). -/
theorem occurrences_in_padded_window (off : Int) (s : String) (now : Instant)
    (t : Int) (ht : t ∈ get_occurrences_at off s (get_week_range now)) :
    1440 * mondayDayNum now - 60 < toDisplayWall off t ∧
      toDisplayWall off t ≤ 1440 * mondayDayNum now + 7 * 1440 + 60 := by
  cases hp : croniterParse s with
  | none =>
    rw [get_occurrences_at_noparse off s _ hp] at ht
    simp at ht
  | some c =>
    rw [get_occurrences_at_parse off s _ c hp, get_week_range_headD,
      get_week_range_getLastD] at ht
    have hb := @runLoop_mem (croniterNext c)
      (fun p u hu => croniterNext_lt hu) (keepFn off)
      (1440 * mondayDayNum now - DISPLAY_TZ_OFFSET + 8640 + off + 25 * 60)
      (Int.toNat
        (1440 * mondayDayNum now - DISPLAY_TZ_OFFSET + 8640 + off + 25 * 60 -
          (1440 * mondayDayNum now - DISPLAY_TZ_OFFSET + off - 60)) + 1)
      (1440 * mondayDayNum now - DISPLAY_TZ_OFFSET + off - 60) t ht
    simp only [toDisplayWall, DISPLAY_TZ_OFFSET] at hb ⊢
    omega

theorem occurrences_in_padded_window_witness :
    (10050 : Int) ∈ get_occurrences_at 480 "30 23 * * *" (get_week_range 10000) ∧
    (1440 * mondayDayNum 10000 - 60 < toDisplayWall 480 10050 ∧
      toDisplayWall 480 10050 ≤ 1440 * mondayDayNum 10000 + 7 * 1440 + 60) := by
  have hmem : (10050 : Int) ∈ get_occurrences_at 480 "30 23 * * *"
      (get_week_range 10000) := by decide
  exact ⟨hmem, occurrences_in_padded_window 480 "30 23 * * *" 10000 10050 hmem⟩

/-- C3 (counterexample): over the week with Monday anchor 9600 (display
wall minute 10080 = Monday 00:00), the daily-23:30 job in the display
timezone emits the raw occurrence 10050 — display instant Sunday 23:30 of
the *previous* week, strictly before Monday 00:00 — refuting the claim that
every emitted occurrence lies inside the requested display week. -/
theorem occurrence_outside_week_counterexample :
    (10050 : Int) ∈ get_occurrences_at 480 "30 23 * * *" (get_week_range 10000) ∧
    toDisplayWall 480 10050 < 1440 * mondayDayNum 10000 := by
  constructor
  · decide
  · decide

/-- C5 (amended): for a job firing daily at 23:30 in a timezone 9 hours
ahead of the display timezone (offset `DISPLAY_TZ_OFFSET + 540`), the
expansion contains an occurrence converting to display time 14:30 on the
*same* display-local day as the job-local firing day (23:30 − 9h = 14:30
does not cross midnight backwards), not on the previous day as claimed —
see `previous_day_counterexample`. -/
theorem cross_tz_same_day_1430 (now : Instant) :
    ∃ t ∈ get_occurrences_at (DISPLAY_TZ_OFFSET + 540) "30 23 * * *"
        (get_week_range now),
      wallHour (toDisplayWall (DISPLAY_TZ_OFFSET + 540) t) = 14 ∧
      wallMinute (toDisplayWall (DISPLAY_TZ_OFFSET + 540) t) = 30 ∧
      toDisplayWall (DISPLAY_TZ_OFFSET + 540) t / 1440 = t / 1440 := by
  have hp : croniterParse "30 23 * * *"
      = some ⟨.val 30, .val 23, .any, .any, .any⟩ := rfl
  rw [get_occurrences_at_parse _ _ _ _ hp, get_week_range_headD,
    get_week_range_getLastD]
  have hstep : croniterNext ⟨.val 30, .val 23, .any, .any, .any⟩
      (1440 * mondayDayNum now - DISPLAY_TZ_OFFSET + (DISPLAY_TZ_OFFSET + 540) - 60)
      = some (1440 * mondayDayNum now + 1410) := by
    rw [croniterNext_daily (by omega) (by omega)]
    congr 1
    simp only [DISPLAY_TZ_OFFSET]
    push_cast
    omega
  rw [@runLoop_step (croniterNext ⟨.val 30, .val 23, .any, .any, .any⟩)
    (keepFn (DISPLAY_TZ_OFFSET + 540))
    (1440 * mondayDayNum now - DISPLAY_TZ_OFFSET + 8640 + (DISPLAY_TZ_OFFSET + 540) + 25 * 60)
    (Int.toNat
      (1440 * mondayDayNum now - DISPLAY_TZ_OFFSET + 8640 + (DISPLAY_TZ_OFFSET + 540) + 25 * 60 -
        (1440 * mondayDayNum now - DISPLAY_TZ_OFFSET + (DISPLAY_TZ_OFFSET + 540) - 60)))
    (1440 * mondayDayNum now - DISPLAY_TZ_OFFSET + (DISPLAY_TZ_OFFSET + 540) - 60)
    (1440 * mondayDayNum now + 1410)
    hstep (by simp only [DISPLAY_TZ_OFFSET]; omega) (keepFn_eq_true _ _)]
  refine ⟨1440 * mondayDayNum now + 1410, List.mem_cons_self _ _, ?_, ?_, ?_⟩ <;>
    · simp only [toDisplayWall, wallHour, wallMinute, DISPLAY_TZ_OFFSET]
      omega

/-- C5 (counterexample): at the concrete week with Monday anchor 9600, no
occurrence of the daily-23:30 job in the timezone 9 hours ahead of the
display timezone lands at 14:30 of the display-local day *before* the
job-local firing day: every 14:30 occurrence is on the same display day. -/
theorem previous_day_counterexample :
    ¬ ∃ t ∈ get_occurrences_at (DISPLAY_TZ_OFFSET + 540) "30 23 * * *"
        (get_week_range 10000),
      (toDisplayWall (DISPLAY_TZ_OFFSET + 540) t / 1440 = t / 1440 - 1 ∧
       wallHour (toDisplayWall (DISPLAY_TZ_OFFSET + 540) t) = 14 ∧
       wallMinute (toDisplayWall (DISPLAY_TZ_OFFSET + 540) t) = 30) := by
  decide

end OpenClaw
